import Mathlib

/-!
Verification development for the `giustizia-scraper` repository (`src/app.py`).

The file shallowly embeds the parts of the program that the specification
talks about:

* the keyword matcher (the inline matcher of `scrape`, src/app.py lines
  170-189, built on `rapidfuzz.fuzz.partial_ratio`, and the three-score
  `match_keyword` contract of spec section 4.1 whose definition is absent
  from `src/` — only its call site at line 389 survives there);
* the case-scanner loop of `scrape` (lines 70-216) as an executable
  trace-producing function over an environment that fixes, per case number,
  what the browser interaction would yield;
* the session registry protocol of `start_scraping` / `stop_scraping` and
  of `scrape`'s `finally` block (lines 213-216, 246-252, 268-283) as a
  small command-step machine;
* the case-identifier formatting of lines 95 and 185.

Strings are modelled as `List Char`; Python ints as `Int` where sign
matters (thresholds, range bounds) and `Nat` where the source only ever
sees non-negative values (case numbers, counters).
-/

namespace Giustizia

/-! ## Text normalisation (src/app.py line 161: `.lower().strip()`, line 233) -/

/-- Drop leading and trailing whitespace, as Python `str.strip`. -/
def trimWs (l : List Char) : List Char :=
  ((l.dropWhile Char.isWhitespace).reverse.dropWhile Char.isWhitespace).reverse

/-- Lowercase then trim, the normalisation applied to keywords (line 233)
and to the extracted document text (line 161). -/
def normalize (l : List Char) : List Char :=
  trimWs (l.map Char.toLower)

/-! ## Substring test (Python `keyword in text_content`, line 173) -/

/-- Boolean list-prefix test. -/
def prefB : List Char → List Char → Bool
  | [], _ => true
  | _ :: _, [] => false
  | a :: as, b :: bs => a == b && prefB as bs

/-- Boolean contiguous-substring test, Python's `in` on strings. -/
def substrB (k : List Char) : List Char → Bool
  | [] => k.isEmpty
  | d@(_ :: ds) => prefB k d || substrB k ds

/-! ## Similarity scores

`scrape` scores a keyword against the page text with
`rapidfuzz.fuzz.partial_ratio` (line 172).  The library is an external
collaborator; we embed the standard Indel-based ratio it documents:
`ratio(a,b) = 100·(|a|+|b|-dist)/(|a|+|b|)` with the Indel distance
`|a|+|b| - 2·lcs(a,b)`, and `partial_ratio` as the best `ratio` of the
shorter string against every window of that length in the longer one.
The longest-common-subsequence length is computed with explicit fuel
(`fuel = |a|+|b|` always suffices) so that everything reduces in the
kernel. -/

/-- Fuelled longest-common-subsequence length. -/
def lcsF : Nat → List Char → List Char → Nat
  | 0, _, _ => 0
  | _ + 1, [], _ => 0
  | _ + 1, _ :: _, [] => 0
  | f + 1, a :: as, b :: bs =>
    if a = b then lcsF f as bs + 1
    else max (lcsF f (a :: as) bs) (lcsF f as (b :: bs))

/-- Longest-common-subsequence length of two character lists. -/
def lcsLen (a b : List Char) : Nat :=
  lcsF (a.length + b.length) a b

/-- Indel-based similarity in [0,100] (the `fuzz.ratio` normalised
similarity): `200·lcs/(|a|+|b|)`, with two empty inputs scoring 100. -/
def simScore (a b : List Char) : Nat :=
  if a.length + b.length = 0 then 100
  else (200 * lcsLen a b) / (a.length + b.length)

/-- All contiguous windows of length `n` of `l` (empty when `n > |l|`
except for the single empty window when `n = 0`). -/
def windows (n : Nat) (l : List Char) : List (List Char) :=
  (List.range (l.length + 1 - n)).map (fun i => (l.drop i).take n)

/-- Windowed alignment score: the best `simScore` of the shorter input
against every window of its length in the longer one; models
`fuzz.partial_ratio`.  One empty and one non-empty input score 0. -/
def partScore (a b : List Char) : Nat :=
  if a.isEmpty && b.isEmpty then 100
  else if a.isEmpty || b.isEmpty then 0
  else if a.length ≤ b.length then
    ((windows a.length b).map (simScore a)).foldl max 0
  else
    ((windows b.length a).map (simScore b)).foldl max 0

/-! ## Token-level scores (spec section 4.1; `match_keyword` is called at
src/app.py line 389 but its definition is not in `src/`, so the
token-level scores are modelled from the spec's words). -/

/-- Whitespace tokenisation (accumulator holds the current token reversed). -/
def tokensGo : List Char → List Char → List (List Char)
  | [], acc => if acc.isEmpty then [] else [acc.reverse]
  | c :: cs, acc =>
    if c.isWhitespace then
      if acc.isEmpty then tokensGo cs [] else acc.reverse :: tokensGo cs []
    else tokensGo cs (c :: acc)

/-- Split a character list into whitespace-separated tokens. -/
def tokens (l : List Char) : List (List Char) :=
  tokensGo l []

/-- Lexicographic order on character lists. -/
def lexLe : List Char → List Char → Bool
  | [], _ => true
  | _ :: _, [] => false
  | a :: as, b :: bs => if a = b then lexLe as bs else decide (a < b)

/-- Insert a token into a `lexLe`-sorted list. -/
def insTok (x : List Char) : List (List Char) → List (List Char)
  | [] => [x]
  | y :: ys => if lexLe x y then x :: y :: ys else y :: insTok x ys

/-- Insertion sort of tokens by `lexLe`. -/
def sortToks (ts : List (List Char)) : List (List Char) :=
  ts.foldr insTok []

/-- Join tokens with single spaces. -/
def joinToks : List (List Char) → List Char
  | [] => []
  | [t] => t
  | t :: ts => t ++ [' '] ++ joinToks ts

/-- Modelled from the spec: `match_keyword`'s "token-order-insensitive
sorted-token score" — the plain similarity of the two inputs after
sorting their tokens. -/
def tokenSortScore (a b : List Char) : Nat :=
  simScore (joinToks (sortToks (tokens a))) (joinToks (sortToks (tokens b)))

/-- Modelled from the spec: `match_keyword`'s "token-set (set-overlap)
score" — the proportion of shared distinct tokens, scaled to [0,100]. -/
def tokenSetScore (a b : List Char) : Nat :=
  if (tokens a).dedup.length + (tokens b).dedup.length = 0 then 100
  else
    (200 * min
        ((tokens a).dedup.filter (fun t => decide (t ∈ (tokens b).dedup))).length
        ((tokens b).dedup.filter (fun t => decide (t ∈ (tokens a).dedup))).length)
      / ((tokens a).dedup.length + (tokens b).dedup.length)

/-! ## The matcher -/

/-- The `method` field of a `MatchOutcome` (spec section 3): which check
produced the reported score. -/
inductive MatchMethod
  | exact
  | partAlign
  | tokenSort
  | tokenSet
  | noMethod
  deriving DecidableEq

/-- The partial/windowed score of the normalised pair (spec section 4.1). -/
def fuzzP (k d : List Char) : Nat :=
  partScore (normalize k) (normalize d)

/-- The sorted-token score of the normalised pair (spec section 4.1). -/
def fuzzS (k d : List Char) : Nat :=
  tokenSortScore (normalize k) (normalize d)

/-- The token-set score of the normalised pair (spec section 4.1). -/
def fuzzW (k d : List Char) : Nat :=
  tokenSetScore (normalize k) (normalize d)

/-- The maximum of the three fuzzy scores. -/
def fuzzMax (k d : List Char) : Nat :=
  max (fuzzP k d) (max (fuzzS k d) (fuzzW k d))

/-- Which score achieved the maximum, with the spec's fixed tie
precedence: partial/windowed, then sorted-token, then token-set. -/
def fuzzMeth (k d : List Char) : MatchMethod :=
  if fuzzP k d = fuzzMax k d then MatchMethod.partAlign
  else if fuzzS k d = fuzzMax k d then MatchMethod.tokenSort
  else MatchMethod.tokenSet

/-- Modelled from the spec: `match_keyword(keyword, doc, threshold)`
(called at src/app.py line 389; its definition is missing from `src/`).
Normalise both inputs; an exact substring wins with score 100; otherwise
the maximum of the three fuzzy scores decides, with method tie precedence
partAlign > tokenSort > tokenSet. -/
def match_keyword (keyword doc : List Char) (threshold : Int) :
    Bool × Nat × MatchMethod :=
  if substrB (normalize keyword) (normalize doc) then
    (true, 100, MatchMethod.exact)
  else
    (decide (threshold ≤ (fuzzMax keyword doc : Int)), fuzzMax keyword doc,
      fuzzMeth keyword doc)

/-- The inline per-keyword decision of `scrape` (src/app.py lines 172-175):
`score >= precision or exact_match`, with `score = fuzz.partial_ratio` and
`exact_match = keyword in text_content`. -/
def keywordHit (keyword text : List Char) (precision : Int) : Bool :=
  decide (precision ≤ (partScore keyword text : Int)) || substrB keyword text

/-! ## Case identifiers (src/app.py lines 95 and 185) -/

/-- `f"{num:05d}"` for a non-negative int: the decimal rendering padded
with leading zeros to at least five digits (line 95). -/
def number_str (num : Nat) : String :=
  String.mk (List.replicate (5 - (Nat.repr num).length) '0') ++ Nat.repr num

/-- The case identifier `f"{year}{number_str}"` emitted in `result_found`
events (line 185) and in status texts (line 102). -/
def caseId (year num : Nat) : String :=
  Nat.repr year ++ number_str num

/-! ## The case-scanner loop (src/app.py lines 70-216)

`scrape` drives a real browser; the embedding replaces the browser by an
environment that fixes, for each case number, which of the control-flow
outcomes the interaction reaches:

* `caseError` — an exception escapes to the per-case handler at line 194
  (navigation failure after the 3 retries of lines 107-116, an extraction
  failure at line 161, or any other error inside the `try` of line 105);
* `noResult` — the wait for `#valoreOggetto` times out (lines 143-147:
  `current_progress += 1; continue`);
* `pageText raw` — the page yields `raw` as the element text, which the
  code lowercases and strips (line 161) and, when empty, skips via lines
  163-166 (`current_progress += 1; continue`).

Cancellation (`self.is_running`) is cleared by `stop_scraping` at some
real time; the loop observes it only at the top-of-iteration check of
lines 92-93, so the environment records the first iteration index at
which the check sees the cleared flag (`cancelAt = none`: never).

The trace records each observable action of the run, including the
inter-case `time.sleep(random.uniform(1.0, 2.0))` of line 199
(`sleepBetweenCases`). -/

/-- Outcome of the browser interaction for one case number. -/
inductive CaseBehavior
  | caseError
  | noResult
  | pageText (raw : List Char)
  deriving DecidableEq

/-- Observable actions of one `scrape` run, in order. -/
inductive Ev
  | progressUpdateStart
  | progressUpdate (current total num : Nat)
  | resultFound (keyword : List Char) (caseNumber : String) (score : Nat)
      (exact : Bool)
  | sleepBetweenCases
  | scrapingComplete (results : List (List Char × List String))
      (total_found : Nat)
  | scrapingError
  deriving DecidableEq

/-- The accumulated `self.results` dictionary: keyword to the list of
matched `number_str`s, both in insertion order. -/
def ResMap : Type := List (List Char × List String)

instance : DecidableEq ResMap := by
  unfold ResMap
  exact inferInstance

/-- Lines 176-179: create the keyword's entry on first use, append the
case's `number_str` unless already present. -/
def addResult : ResMap → List Char → String → ResMap
  | [], kw, ns => [(kw, [ns])]
  | (k, l) :: rest, kw, ns =>
    if k = kw then (k, if ns ∈ l then l else l ++ [ns]) :: rest
    else (k, l) :: addResult rest kw ns

/-- `sum(len(numbers) for numbers in self.results.values())` (line 206). -/
def total_found (r : ResMap) : Nat :=
  (r.map (fun kv => kv.2.length)).sum

/-- The keyword loop of lines 171-189 for one case: score every keyword
against the normalised text; on a hit, record the case and emit a
`result_found` event. -/
def matchCase (year num : Nat) (precision : Int) (text : List Char) :
    List (List Char) → ResMap → ResMap × List Ev
  | [], r => (r, [])
  | kw :: rest, r =>
    let score := partScore kw text
    let exact := substrB kw text
    if keywordHit kw text precision then
      let next := matchCase year num precision text rest (addResult r kw (number_str num))
      (next.1, Ev.resultFound kw (caseId year num) score exact :: next.2)
    else
      matchCase year num precision text rest r

/-- One iteration body after the progress emit (lines 105-199), minus the
progress-counter bookkeeping: every path increments `current_progress`
exactly once, but only some reach the inter-case sleep of line 199 —
`noResult` and empty text `continue` past it (lines 147, 166), while a
caught per-case error falls through to it. -/
def caseStep (beh : CaseBehavior) (year num : Nat) (precision : Int)
    (keywords : List (List Char)) (r : ResMap) : ResMap × List Ev :=
  match beh with
  | CaseBehavior.caseError => (r, [Ev.sleepBetweenCases])
  | CaseBehavior.noResult => (r, [])
  | CaseBehavior.pageText raw =>
    let text := normalize raw
    if text.isEmpty then (r, [])
    else
      let m := matchCase year num precision text keywords r
      (m.1, m.2 ++ [Ev.sleepBetweenCases])

/-- Whether the inter-case sleep of line 199 runs for a case with the
given interaction outcome. -/
def sleepRuns : CaseBehavior → Bool
  | CaseBehavior.caseError => true
  | CaseBehavior.noResult => false
  | CaseBehavior.pageText raw => !(normalize raw).isEmpty

/-- Whether the cancellation check of lines 92-93 sees the cleared flag
at iteration index `i`. -/
def stoppedAt (cancelAt : Option Nat) (i : Nat) : Bool :=
  match cancelAt with
  | none => false
  | some c => decide (c ≤ i)

/-- The `for num in range(start_num, end_num + 1)` loop of lines 91-199:
`num` is the next case number, the second argument the count of case
numbers still to visit, `i` the iteration index (equal to
`current_progress`, since every visited case increments it exactly once),
`r` the results so far. -/
def scrapeLoop (behavior : Nat → CaseBehavior) (cancelAt : Option Nat)
    (year : Nat) (precision : Int) (keywords : List (List Char))
    (total : Nat) : Nat → Nat → Nat → ResMap → ResMap × List Ev
  | _, 0, _, r => (r, [])
  | num, n + 1, i, r =>
    if stoppedAt cancelAt i then (r, [])
    else
      let c := caseStep (behavior num) year num precision keywords r
      let rest := scrapeLoop behavior cancelAt year precision keywords total
        (num + 1) n (i + 1) c.1
      (rest.1, Ev.progressUpdate i total num :: (c.2 ++ rest.2))

/-- The environment of one run: whether the automation engine launches at
all (lines 87-89; failure escapes to the handler at line 209), the
per-case interaction outcome, and the cancellation schedule. -/
structure ScanEnv where
  launchOk : Bool
  behavior : Nat → CaseBehavior
  cancelAt : Option Nat

/-- A whole `scrape` run (lines 70-211) as its event trace: the initial
progress emit of lines 79-84, then — when the engine launches — the case
loop followed unconditionally by the `scraping_complete` emit of lines
204-207, or the `scraping_error` emit of line 211 when launching fails. -/
def scrapeRun (env : ScanEnv) (year startNum endNum : Nat)
    (keywords : List (List Char)) (precision : Int) : List Ev :=
  let total := endNum + 1 - startNum
  if env.launchOk then
    let run := scrapeLoop env.behavior env.cancelAt year precision keywords
      total startNum total 0 []
    Ev.progressUpdateStart ::
      (run.2 ++ [Ev.scrapingComplete run.1 (total_found run.1)])
  else
    [Ev.progressUpdateStart, Ev.scrapingError]

/-- The case number named by a per-case progress event, if any. -/
def evCaseNum : Ev → Option Nat
  | Ev.progressUpdate _ _ num => some num
  | _ => none

/-- The case numbers the loop visited, read off the trace. -/
def visitedNums (t : List Ev) : List Nat :=
  t.filterMap evCaseNum

/-! ## The session registry (src/app.py lines 20, 213-216, 246-252,
268-283)

`scraping_sessions` is a process-wide dict from session id to scraper.
Three code paths touch it: `start_scraping` admits a session if absent
and spawns the background task; `stop_scraping` clears `is_running` and
deletes the entry immediately — without waiting for the task, which keeps
running until the next lines 92-93 check; and `scrape`'s `finally` block
deletes the entry if still present when the task returns.  The machine
tracks the dict keys (`sessions`), the session ids of tasks whose
`scrape` call has not yet returned (`running` — a task cancelled by
`stop_scraping` stays here until it observes the flag and returns), and
counters of admissions and of successful deletions. -/

/-- Registry commands: an admitted `start_scraping` call, a
`stop_scraping` call, and the return of a session's background task
(its `finally` block). -/
inductive Cmd
  | start (sid : Nat)
  | stop (sid : Nat)
  | finish (sid : Nat)
  deriving DecidableEq

/-- Synchronous responses of the three paths. -/
inductive Resp
  | started
  | alreadyRunning
  | stopListed
  | stopNotFound
  | taskExited
  deriving DecidableEq

/-- Registry state: dict keys, not-yet-returned tasks, and admission /
deletion counters. -/
structure RegState where
  sessions : List Nat
  running : List Nat
  startCount : Nat
  delCount : Nat
  deriving DecidableEq

/-- The empty registry at process start. -/
def regInit : RegState := ⟨[], [], 0, 0⟩

/-- One registry transition.  `start` (lines 246-252): reject when the id
is present, else insert and spawn.  `stop` (lines 274-279): when present,
clear the flag and delete the entry at once (the task itself stays in
`running`).  `finish` (lines 213-216): the task returns and deletes its
entry only if still present. -/
def regStep (s : RegState) : Cmd → RegState × Resp
  | Cmd.start sid =>
    if sid ∈ s.sessions then (s, Resp.alreadyRunning)
    else
      (⟨sid :: s.sessions, sid :: s.running, s.startCount + 1, s.delCount⟩,
        Resp.started)
  | Cmd.stop sid =>
    if sid ∈ s.sessions then
      (⟨s.sessions.erase sid, s.running, s.startCount, s.delCount + 1⟩,
        Resp.stopListed)
    else (s, Resp.stopNotFound)
  | Cmd.finish sid =>
    if sid ∈ s.sessions then
      (⟨s.sessions.erase sid, s.running.erase sid, s.startCount,
        s.delCount + 1⟩, Resp.taskExited)
    else
      (⟨s.sessions, s.running.erase sid, s.startCount, s.delCount⟩,
        Resp.taskExited)

/-- Run a command sequence from a state. -/
def regRun (s : RegState) : List Cmd → RegState
  | [] => s
  | c :: cs => regRun (regStep s c).1 cs

/-! ## Request validation (src/app.py lines 223-266) -/

/-- Outcome of a `start_scraping` request. -/
inductive StartOutcome
  | errNoKeywords
  | errStartGreaterEnd
  | errRangeTooLarge
  | errAlreadyRunning
  | started
  deriving DecidableEq

/-- The validation chain of `start_scraping` (lines 236-252) on
already-parsed fields: empty keyword list, `start_num > end_num`, the
`end_num - start_num > 10000` range cap, then the admission check; on
success the session is registered. -/
def start_scraping (keywords : List (List Char)) (startNum endNum : Int)
    (sessionId : Nat) (sessions : List Nat) : StartOutcome × List Nat :=
  if keywords.isEmpty then (StartOutcome.errNoKeywords, sessions)
  else if startNum > endNum then (StartOutcome.errStartGreaterEnd, sessions)
  else if endNum - startNum > 10000 then
    (StartOutcome.errRangeTooLarge, sessions)
  else if sessionId ∈ sessions then
    (StartOutcome.errAlreadyRunning, sessions)
  else (StartOutcome.started, sessionId :: sessions)

/-- The removal accounting of the registry: every admitted session id was
either deleted again (by `stop_scraping` or by the task's `finally`) or is
still present — and deletions only ever remove a present entry. -/
def regInv (s : RegState) : Prop :=
  s.startCount = s.delCount + s.sessions.length

/-! ## Concrete environments used by the theorems below -/

/-- A run whose every case times out waiting for results, cancelled at
iteration index 1. -/
def envCancelled : ScanEnv :=
  ⟨true, fun _ => CaseBehavior.noResult, some 1⟩

/-- A run whose single case times out waiting for results; never
cancelled. -/
def envNoResult : ScanEnv :=
  ⟨true, fun _ => CaseBehavior.noResult, none⟩

/-- A three-case run in which case 2 raises inside the per-case boundary
while cases 1 and 3 yield text containing the keyword; never cancelled. -/
def envMidError : ScanEnv :=
  ⟨true,
    fun n => if n = 2 then CaseBehavior.caseError
      else CaseBehavior.pageText "gara dappalto pubblico".data,
    none⟩

/-! ## Helper lemmas -/

theorem lcsF_le_left : ∀ (f : Nat) (a b : List Char), lcsF f a b ≤ a.length := by
  intro f
  induction f with
  | zero => intro a b; simp [lcsF]
  | succ f ih =>
    intro a b
    cases a with
    | nil => simp [lcsF]
    | cons x xs =>
      cases b with
      | nil => simp [lcsF]
      | cons y ys =>
        simp only [lcsF, List.length_cons]
        split
        · exact Nat.succ_le_succ (ih xs ys)
        · exact max_le (ih (x :: xs) ys) (Nat.le_succ_of_le (ih xs (y :: ys)))

theorem lcsF_le_right : ∀ (f : Nat) (a b : List Char), lcsF f a b ≤ b.length := by
  intro f
  induction f with
  | zero => intro a b; simp [lcsF]
  | succ f ih =>
    intro a b
    cases a with
    | nil => simp [lcsF]
    | cons x xs =>
      cases b with
      | nil => simp [lcsF]
      | cons y ys =>
        simp only [lcsF, List.length_cons]
        split
        · exact Nat.succ_le_succ (ih xs ys)
        · exact max_le (Nat.le_succ_of_le (ih (x :: xs) ys)) (ih xs (y :: ys))

theorem simScore_le (a b : List Char) : simScore a b ≤ 100 := by
  unfold simScore
  split
  · exact Nat.le_refl 100
  · rename_i h
    have hl : lcsLen a b ≤ a.length := lcsF_le_left _ a b
    have hr : lcsLen a b ≤ b.length := lcsF_le_right _ a b
    calc (200 * lcsLen a b) / (a.length + b.length)
        ≤ (100 * (a.length + b.length)) / (a.length + b.length) :=
          Nat.div_le_div_right (by omega)
      _ = 100 := Nat.mul_div_cancel _ (by omega)

theorem foldl_max_le (l : List Nat) :
    ∀ init : Nat, init ≤ 100 → (∀ x ∈ l, x ≤ 100) → l.foldl max init ≤ 100 := by
  induction l with
  | nil => intro init h _; simpa using h
  | cons a as ih =>
    intro init h hall
    simp only [List.foldl_cons]
    exact ih (max init a) (max_le h (hall a (List.mem_cons_self a as)))
      (fun x hx => hall x (List.mem_cons_of_mem _ hx))

theorem windowScores_le (s l : List Char) :
    ∀ x ∈ (windows s.length l).map (simScore s), x ≤ 100 := by
  intro x hx
  rcases List.mem_map.1 hx with ⟨w, _, rfl⟩
  exact simScore_le _ _

theorem partScore_le (a b : List Char) : partScore a b ≤ 100 := by
  unfold partScore
  split
  · exact Nat.le_refl 100
  · split
    · omega
    · split
      · exact foldl_max_le _ 0 (by omega) (windowScores_le a b)
      · exact foldl_max_le _ 0 (by omega) (windowScores_le b a)

theorem tokenSortScore_le (a b : List Char) : tokenSortScore a b ≤ 100 :=
  simScore_le _ _

theorem tokenSetScore_le (a b : List Char) : tokenSetScore a b ≤ 100 := by
  unfold tokenSetScore
  split
  · exact Nat.le_refl 100
  · rename_i h
    have ha : ((tokens a).dedup.filter
        (fun t => decide (t ∈ (tokens b).dedup))).length ≤ (tokens a).dedup.length :=
      List.length_filter_le _ _
    have hb : ((tokens b).dedup.filter
        (fun t => decide (t ∈ (tokens a).dedup))).length ≤ (tokens b).dedup.length :=
      List.length_filter_le _ _
    calc _ ≤ (100 * ((tokens a).dedup.length + (tokens b).dedup.length))
          / ((tokens a).dedup.length + (tokens b).dedup.length) :=
          Nat.div_le_div_right (by omega)
      _ = 100 := Nat.mul_div_cancel _ (by omega)

theorem matchCase_noCaseNum (year num : Nat) (p : Int) (text : List Char) :
    ∀ (kws : List (List Char)) (r : ResMap),
      ((matchCase year num p text kws r).2).filterMap evCaseNum = [] := by
  intro kws
  induction kws with
  | nil => intro r; simp [matchCase]
  | cons kw rest ih =>
    intro r
    simp only [matchCase]
    split
    · simp [evCaseNum, ih]
    · exact ih r

theorem caseStep_noCaseNum (beh : CaseBehavior) (year num : Nat) (p : Int)
    (kws : List (List Char)) (r : ResMap) :
    ((caseStep beh year num p kws r).2).filterMap evCaseNum = [] := by
  cases beh with
  | caseError => simp [caseStep, evCaseNum]
  | noResult => simp [caseStep]
  | pageText raw =>
    simp only [caseStep]
    split
    · simp
    · simp [List.filterMap_append, matchCase_noCaseNum, evCaseNum]

theorem scrapeLoop_visited (behavior : Nat → CaseBehavior) (year : Nat)
    (p : Int) (kws : List (List Char)) (total : Nat) :
    ∀ (n num i : Nat) (r : ResMap),
      ((scrapeLoop behavior none year p kws total num n i r).2).filterMap
        evCaseNum = List.range' num n := by
  intro n
  induction n with
  | zero => intro num i r; simp [scrapeLoop]
  | succ n ih =>
    intro num i r
    simp only [scrapeLoop, stoppedAt, Bool.false_eq_true, if_false]
    rw [List.range'_succ]
    simp [evCaseNum, List.filterMap_append, caseStep_noCaseNum, ih]

theorem regInv_step (s : RegState) (c : Cmd) (h : regInv s) :
    regInv (regStep s c).1 := by
  cases c with
  | start sid =>
    simp only [regStep]
    split
    · exact h
    · simp only [regInv] at h ⊢
      simp only [List.length_cons]
      omega
  | stop sid =>
    simp only [regStep]
    split
    · rename_i hm
      have he := List.length_erase_of_mem hm
      have hp := List.length_pos_of_mem hm
      simp only [regInv] at h ⊢
      omega
    · exact h
  | finish sid =>
    simp only [regStep]
    split
    · rename_i hm
      have he := List.length_erase_of_mem hm
      have hp := List.length_pos_of_mem hm
      simp only [regInv] at h ⊢
      omega
    · exact h

theorem regInv_run : ∀ (cmds : List Cmd) (s : RegState),
    regInv s → regInv (regRun s cmds) := by
  intro cmds
  induction cmds with
  | nil => intro s h; exact h
  | cons c cs ih => intro s h; exact ih _ (regInv_step s c h)

/-! ## Claim theorems -/

/-- C1, counterexample.  A run of cases 1-3 whose cancellation flag is
observed cleared at iteration index 1 exits the loop via the lines 92-93
check — it visits only case 1 and emits no `scraping_error` — and yet the
`scraping_complete` event IS among the events emitted for that run,
because the emit of lines 204-207 sits after the loop on the `break` path
too.  This refutes the claim that no scraping_complete is ever emitted
for a cancelled run. -/
theorem cancelled_run_still_completes :
    Ev.scrapingComplete [] 0 ∈ scrapeRun envCancelled 2024 1 3 [['a']] 80 ∧
    visitedNums (scrapeRun envCancelled 2024 1 3 [['a']] 80) = [1] ∧
    Ev.scrapingError ∉ scrapeRun envCancelled 2024 1 3 [['a']] 80 := by
  decide

/-- C1, amended.  Whenever the automation engine launches, every run —
cancelled mid-scan or not — emits a `scraping_complete` event (with
whatever results had accumulated), since lines 204-207 execute after the
loop regardless of how the loop exited. -/
theorem complete_emitted_even_after_cancel (env : ScanEnv)
    (year startNum endNum : Nat) (kws : List (List Char)) (p : Int)
    (hl : env.launchOk = true) :
    ∃ r n, Ev.scrapingComplete r n ∈ scrapeRun env year startNum endNum kws p := by
  simp only [scrapeRun, hl, if_true]
  exact ⟨_, _, List.mem_cons_of_mem _
    (List.mem_append_right _ (List.Mem.head _))⟩

/-- C1, witness for the amended theorem: the cancelled run above. -/
theorem complete_emitted_even_after_cancel_witness :
    ∃ r n, Ev.scrapingComplete r n ∈ scrapeRun envCancelled 2024 1 3 [['a']] 80 :=
  complete_emitted_even_after_cancel envCancelled 2024 1 3 [['a']] 80 rfl

/-- C2.  If the normalised keyword is a substring of the normalised
document, `match_keyword` returns matched = true, score 100, method
exact, for every threshold. -/
theorem exact_substring_always_wins (k d : List Char) (t : Int)
    (h : substrB (normalize k) (normalize d) = true) :
    match_keyword k d t = (true, 100, MatchMethod.exact) := by
  simp [match_keyword, h]

/-- C2, witness: "corte" inside "  La CORTE dei conti ", threshold 101. -/
theorem exact_substring_always_wins_witness :
    substrB (normalize "corte".data) (normalize "  La CORTE dei conti ".data)
      = true ∧
    match_keyword "corte".data "  La CORTE dei conti ".data 101
      = (true, 100, MatchMethod.exact) :=
  ⟨by decide, exact_substring_always_wins _ _ 101 (by decide)⟩

/-- C3.  On a non-substring pair, `match_keyword` computes the three
fuzzy scores, each at most 100 (and at least 0, being naturals), reports
their maximum as the score, decides matched by comparing that maximum to
the threshold, and picks the method achieving the maximum with tie
precedence partial/windowed, then sorted-token, then token-set. -/
theorem fuzzy_branch_shape (k d : List Char) (t : Int)
    (h : substrB (normalize k) (normalize d) = false) :
    fuzzP k d ≤ 100 ∧ fuzzS k d ≤ 100 ∧ fuzzW k d ≤ 100 ∧
    (match_keyword k d t).2.1 = fuzzMax k d ∧
    ((match_keyword k d t).1 = true ↔ t ≤ (fuzzMax k d : Int)) ∧
    (match_keyword k d t).2.2 = fuzzMeth k d ∧
    (fuzzMeth k d = MatchMethod.partAlign ↔ fuzzP k d = fuzzMax k d) ∧
    (fuzzMeth k d = MatchMethod.tokenSort ↔
      (fuzzS k d = fuzzMax k d ∧ fuzzP k d ≠ fuzzMax k d)) ∧
    (fuzzMeth k d = MatchMethod.tokenSet ↔
      (fuzzW k d = fuzzMax k d ∧ fuzzP k d ≠ fuzzMax k d ∧
        fuzzS k d ≠ fuzzMax k d)) := by
  have hmax : fuzzP k d = fuzzMax k d ∨ fuzzS k d = fuzzMax k d ∨
      fuzzW k d = fuzzMax k d := by
    unfold fuzzMax
    rcases max_choice (fuzzP k d) (max (fuzzS k d) (fuzzW k d)) with h1 | h1
    · exact Or.inl h1.symm
    · rcases max_choice (fuzzS k d) (fuzzW k d) with h2 | h2
      · exact Or.inr (Or.inl (by rw [h1, h2]))
      · exact Or.inr (Or.inr (by rw [h1, h2]))
  refine ⟨partScore_le _ _, tokenSortScore_le _ _, tokenSetScore_le _ _,
    ?_, ?_, ?_, ?_, ?_, ?_⟩
  · simp [match_keyword, h]
  · simp [match_keyword, h]
  · simp [match_keyword, h]
  · unfold fuzzMeth
    split
    · rename_i hp; simp [hp]
    · rename_i hp
      split
      · simp [hp]
      · simp [hp]
  · unfold fuzzMeth
    split
    · rename_i hp; simp [hp]
    · rename_i hp
      split
      · rename_i hs; simp [hs, hp]
      · rename_i hs; simp [hs]
  · unfold fuzzMeth
    split
    · rename_i hp; simp [hp]
    · rename_i hp
      split
      · rename_i hs; simp [hs, hp]
      · rename_i hs
        have hw : fuzzW k d = fuzzMax k d := by
          rcases hmax with h1 | h1 | h1
          · exact absurd h1 hp
          · exact absurd h1 hs
          · exact h1
        simp [hw, hp, hs]

/-- C3, witness: "ab" against "cd" (no substring, all scores 0). -/
theorem fuzzy_branch_shape_witness :
    substrB (normalize "ab".data) (normalize "cd".data) = false ∧
    (match_keyword "ab".data "cd".data 80).2.1 = fuzzMax "ab".data "cd".data ∧
    fuzzP "ab".data "cd".data ≤ 100 :=
  ⟨by decide, (fuzzy_branch_shape "ab".data "cd".data 80 (by decide)).2.2.2.1,
    (fuzzy_branch_shape "ab".data "cd".data 80 (by decide)).1⟩

/-- C4, counterexample.  After `start_scraping` for session 7 followed by
`stop_scraping` for session 7, the registry entry is gone while the
background task is still running (it only observes the cleared flag at
its next lines 92-93 check): the entry was removed before the task
reached any terminal state, refuting "never while the task is still
iterating" — and on that task's eventual exit the scanner's `finally`
finds nothing left to remove, refuting "removes its own entry exactly
once on every exit path". -/
theorem entry_removed_while_iterating :
    7 ∉ (regRun regInit [Cmd.start 7, Cmd.stop 7]).sessions ∧
    7 ∈ (regRun regInit [Cmd.start 7, Cmd.stop 7]).running := by
  decide

/-- C4, amended.  Each admitted scan's registry entry is removed exactly
once overall — by `stop_scraping` (possibly while the task still
iterates) or else by the task's guarded `finally` block — so after any
command sequence, admissions = deletions + entries still present. -/
theorem registry_removed_exactly_once : ∀ cmds : List Cmd,
    (regRun regInit cmds).startCount
      = (regRun regInit cmds).delCount
        + (regRun regInit cmds).sessions.length :=
  fun cmds => regInv_run cmds regInit rfl

/-- C5, counterexample.  A single-case run whose case times out waiting
for `#valoreOggetto` (lines 143-147) visits the case — its progress event
is in the trace — yet the inter-case sleep of line 199 never executes,
because the timeout path `continue`s past it.  This refutes "the delay
step is never skipped for a case the iterator visited". -/
theorem sleep_skipped_on_timeout :
    visitedNums (scrapeRun envNoResult 2024 1 1 [['a']] 80) = [1] ∧
    Ev.sleepBetweenCases ∉ scrapeRun envNoResult 2024 1 1 [['a']] 80 := by
  decide

/-- C5, amended.  The inter-case sleep runs exactly for the cases that
reach the bottom of the loop body: every case whose text was scored
(matches or not) and every case whose error was caught at line 194 —
but not the cases that exit early through the result-wait timeout
(line 147) or the empty-content check (line 166). -/
theorem sleep_runs_iff_loop_bottom_reached (beh : CaseBehavior)
    (year num : Nat) (p : Int) (kws : List (List Char)) (r : ResMap) :
    (Ev.sleepBetweenCases ∈ (caseStep beh year num p kws r).2)
      ↔ sleepRuns beh = true := by
  cases beh with
  | caseError => simp [caseStep, sleepRuns]
  | noResult => simp [caseStep, sleepRuns]
  | pageText raw =>
    simp only [caseStep, sleepRuns]
    split
    · rename_i he; simp [he]
    · rename_i he
      simp only [Bool.not_eq_true'] at he ⊢
      simp [List.mem_append, he]

/-- C6.  With the engine launched and no cancellation, whatever the
per-case interaction outcomes — including errors caught at line 194 on
any subset of cases — the loop still visits every case number of the
range in order and the run still reaches the `scraping_complete` emit:
a failing case never aborts the scan. -/
theorem per_case_errors_do_not_abort (env : ScanEnv)
    (year startNum endNum : Nat) (kws : List (List Char)) (p : Int)
    (hc : env.cancelAt = none) (hl : env.launchOk = true) :
    visitedNums (scrapeRun env year startNum endNum kws p)
      = List.range' startNum (endNum + 1 - startNum) ∧
    ∃ r n, Ev.scrapingComplete r n ∈ scrapeRun env year startNum endNum kws p := by
  constructor
  · simp only [scrapeRun, hl, if_true, visitedNums, hc]
    simp [evCaseNum, List.filterMap_append, scrapeLoop_visited]
  · simp only [scrapeRun, hl, if_true]
    exact ⟨_, _, List.mem_cons_of_mem _
      (List.mem_append_right _ (List.Mem.head _))⟩

/-- C6, witness: the three-case run with a per-case error at case 2 —
cases 1 and 3 are still visited, matched and reported. -/
theorem per_case_errors_do_not_abort_witness :
    visitedNums (scrapeRun envMidError 2024 1 3 ["appalto".data] 80)
      = [1, 2, 3] ∧
    Ev.resultFound "appalto".data "202400001" 100 true
      ∈ scrapeRun envMidError 2024 1 3 ["appalto".data] 80 ∧
    Ev.resultFound "appalto".data "202400003" 100 true
      ∈ scrapeRun envMidError 2024 1 3 ["appalto".data] 80 :=
  ⟨((per_case_errors_do_not_abort envMidError 2024 1 3 ["appalto".data] 80
      rfl rfl).1).trans (by decide),
    by decide, by decide⟩

/-- C7, counterexample.  `start_scraping` 7, then `stop_scraping` 7:
the first scan's task is still running — it has not reached any terminal
state, since cancellation is only observed at the next lines 92-93
check — yet a second `start_scraping` for session 7 is admitted, because
admission (line 247) only tests presence in the dict and `stop_scraping`
(line 276) already deleted the entry.  This refutes "a second
start_search with the same sessionId while the first scan has not reached
a terminal state is rejected". -/
theorem second_start_admitted_after_stop :
    7 ∈ (regRun regInit [Cmd.start 7, Cmd.stop 7]).running ∧
    (regStep (regRun regInit [Cmd.start 7, Cmd.stop 7]) (Cmd.start 7)).2
      = Resp.started := by
  decide

/-- C7, amended.  Admission is decided purely by presence in the session
map: a second `start_scraping` is rejected (with AlreadyRunning, no new
scan registered) exactly while the sessionId is still in the map, and
admitted as soon as the entry is gone — which happens at task termination
or already at `stop_scraping` time, possibly before the first task has
terminated. -/
theorem admission_is_presence_in_map (s : RegState) (sid : Nat) :
    (sid ∈ s.sessions → regStep s (Cmd.start sid) = (s, Resp.alreadyRunning)) ∧
    (sid ∉ s.sessions →
      (regStep s (Cmd.start sid)).2 = Resp.started ∧
      (regStep s (Cmd.start sid)).1.sessions = sid :: s.sessions) := by
  constructor
  · intro h; simp [regStep, h]
  · intro h; simp [regStep, h]

/-- C7, witness for the amended theorem: after session 7's task finished
and removed its entry, session 7 is admitted again. -/
theorem admission_is_presence_in_map_witness :
    7 ∉ (regRun regInit [Cmd.start 7, Cmd.finish 7]).sessions ∧
    (regStep (regRun regInit [Cmd.start 7, Cmd.finish 7]) (Cmd.start 7)).2
      = Resp.started :=
  ⟨by decide,
    ((admission_is_presence_in_map (regRun regInit [Cmd.start 7, Cmd.finish 7])
      7).2 (by decide)).1⟩

/-- C8.  Thresholds only gate the decision: for t1 < t2, anything matched
at t2 is matched at t1, both for the inline per-keyword decision of
`scrape` (lines 172-175) and for `match_keyword`, whose reported score
does not depend on the threshold at all. -/
theorem matched_monotone_in_threshold (k d : List Char) (t1 t2 : Int)
    (h : t1 < t2) :
    (keywordHit k d t2 = true → keywordHit k d t1 = true) ∧
    ((match_keyword k d t2).1 = true → (match_keyword k d t1).1 = true) ∧
    (match_keyword k d t1).2.1 = (match_keyword k d t2).2.1 := by
  refine ⟨?_, ?_, ?_⟩
  · intro hh
    simp only [keywordHit, Bool.or_eq_true, decide_eq_true_eq] at hh ⊢
    rcases hh with h1 | h1
    · exact Or.inl (le_trans h.le h1)
    · exact Or.inr h1
  · cases hs : substrB (normalize k) (normalize d) with
    | true => simp [match_keyword, hs]
    | false =>
      simp only [match_keyword, hs, Bool.false_eq_true, if_false,
        decide_eq_true_eq]
      intro h1
      exact le_trans h.le h1
  · cases hs : substrB (normalize k) (normalize d) with
    | true => simp [match_keyword, hs]
    | false => simp [match_keyword, hs]

/-- C8, witness: "c" in "cx" matches at threshold 80, hence at 50. -/
theorem matched_monotone_in_threshold_witness :
    keywordHit ['c'] ['c', 'x'] 50 = true ∧
    (match_keyword ['c'] ['c', 'x'] 50).1 = true :=
  ⟨(matched_monotone_in_threshold ['c'] ['c', 'x'] 50 80 (by decide)).1
      (by decide),
    (matched_monotone_in_threshold ['c'] ['c', 'x'] 50 80 (by decide)).2.1
      (by decide)⟩

/-- C9.  The case identifier is the decimal year followed by the case
number zero-padded to (at least) 5 digits; in particular
caseId 2024 7 = "202400007" and caseId 2024 10000 = "202410000", and in
general its length is the year's plus the padded width. -/
theorem caseId_format :
    caseId 2024 7 = "202400007" ∧ caseId 2024 10000 = "202410000" ∧
    ∀ year num : Nat, (caseId year num).length
      = (Nat.repr year).length + max 5 (Nat.repr num).length := by
  refine ⟨by decide, by decide, ?_⟩
  intro year num
  unfold caseId number_str
  rw [String.length_append, String.length_append]
  simp only [String.length, String.data, List.length_replicate]
  omega

/-- C10.  A request whose every other field is valid (non-empty keywords,
startNum ≤ endNum) but whose range exceeds 10000 is rejected with the
range-too-large error, and the session map is left untouched — no scan is
created or registered. -/
theorem range_cap_rejects (kws : List (List Char)) (startNum endNum : Int)
    (sid : Nat) (sessions : List Nat) (h1 : kws ≠ [])
    (h2 : startNum ≤ endNum) (h3 : 10000 < endNum - startNum) :
    start_scraping kws startNum endNum sid sessions
      = (StartOutcome.errRangeTooLarge, sessions) := by
  cases kws with
  | nil => exact absurd rfl h1
  | cons kw rest =>
    simp [start_scraping, h3, not_lt.mpr h2]

/-- C10, witness: range 0..10001 with one keyword. -/
theorem range_cap_rejects_witness :
    start_scraping [['a']] 0 10001 7 []
      = (StartOutcome.errRangeTooLarge, []) :=
  range_cap_rejects [['a']] 0 10001 7 []
    (by simp) (by decide) (by decide)

end Giustizia
